import Mathlib

/-!
Verification of the Precision RAG backend (PDF ingestion and query pipeline).

The Python sources are shallowly embedded: page and chunk texts are `List Char`,
Python `str.find`, slicing and `max(0, ...)` are modelled explicitly, stateful
interaction with the vector store is explicit state passing over a list of ids,
and code that may raise is modelled with `Except Unit`.
-/

namespace PrecisionRAG

/-! ## Offset recovery (`backend/services/ingest.py`, `_find_chunk_bounds`) -/

/-- Does `sub` occur in `s` starting exactly at index `i`?
(`i + sub.length ≤ s.length` is forced by the list equality.) -/
def matchAt (s sub : List Char) (i : Nat) : Bool :=
  decide ((s.drop i).take sub.length = sub)

/-- Python `s.find(sub, start)`: the lowest index `i ≥ start` at which `sub`
occurs in `s`, `none` when there is no such occurrence (Python returns `-1`). -/
def pyFind (s sub : List Char) (start : Nat) : Option Nat :=
  (List.range (s.length + 1)).find? (fun i => decide (start ≤ i) && matchAt s sub i)

/-- The two `find` calls of `_find_chunk_bounds`: first constrained to begin at
`search_start`, then the unconstrained retry from the beginning of the page.
`none` corresponds to both calls returning `-1` (the degraded fallback). -/
def locateChunk (pageText chunkText : List Char) (searchStart : Nat) : Option Nat :=
  match pyFind pageText chunkText searchStart with
  | some i => some i
  | none => pyFind pageText chunkText 0

/-- `_find_chunk_bounds(page_text, chunk_text, search_start)`:
returns `(idx, end_idx, next_search)` where in the degraded fallback
`idx = len(page_text)`, `end_idx = idx + len(chunk_text)` and
`next_search = max(0, end_idx - chunk_overlap)` (Python int arithmetic,
hence the explicit `Int` detour). `overlap` stands for `settings.chunk_overlap`. -/
def findChunkBounds (overlap : Nat) (pageText chunkText : List Char) (searchStart : Nat) :
    Nat × Nat × Nat :=
  let idx := (locateChunk pageText chunkText searchStart).getD pageText.length
  let endIdx := idx + chunkText.length
  (idx, endIdx, Int.toNat (max 0 ((endIdx : Int) - (overlap : Int))))

/-- Python slice `s[a:b]` for `0 ≤ a ≤ b`. -/
def pySlice (s : List Char) (a b : Nat) : List Char :=
  (s.drop a).take (b - a)

/-! ## Query-side data model (`backend/services/query.py`) -/

/-- The metadata fields of a stored chunk that the query path reads. -/
structure Metadata where
  source_file : String
  page_number : Nat
deriving DecidableEq

/-- One entry of the `combined` list built in `retrieve_chunks`:
`{"id": ..., "document": ..., "metadata": ..., "distance": ...}`.
The document text is kept as `List Char` so Python `len` and slicing are
list length and `take`/`drop`. -/
structure RChunk where
  id : String
  document : List Char
  metadata : Metadata
  distance : Int
deriving DecidableEq

/-- The budget loop of `retrieve_chunks` (lines 78-87): walk the ranked list,
keep a running total of document lengths, and `break` at the first chunk whose
addition would push the total over `max_chars`. -/
def budgetLoop (maxChars : Nat) (total : Nat) : List RChunk → List RChunk
  | [] => []
  | c :: rest =>
    if maxChars < total + c.document.length then []
    else c :: budgetLoop maxChars (total + c.document.length) rest

/-- The `filtered` list returned by `retrieve_chunks`: the budget loop started
with `total_chars = 0` on the ranked `combined` list. -/
def retrieveBudget (maxChars : Nat) (combined : List RChunk) : List RChunk :=
  budgetLoop maxChars 0 combined

/-! ## Citation mapping (`backend/services/query.py`, `build_citations`)

`CITATION_PATTERN = re.compile(r"\[Ref:\s*Page\s*(\d+)\]")` is modelled by a
hand-rolled matcher over `List Char` (`\s` as `Char.isWhitespace`, `\d` as the
ASCII `Char.isDigit`), and `finditer` by a left-to-right scan that resumes
after the end of each match (matches are non-overlapping). -/

/-- A citation dict as produced by `build_citations`. -/
structure Citation where
  id : Nat
  source_file : String
  page_number : Nat
  snippet : List Char
deriving DecidableEq

/-- Match a literal character sequence at the head of `s`, returning the rest. -/
def parseLit : List Char → List Char → Option (List Char)
  | [], s => some s
  | _ :: _, [] => none
  | c :: cs, d :: ds => if d = c then parseLit cs ds else none

/-- Decimal value of a digit string (most significant first). -/
def natOfDigits (ds : List Char) : Nat :=
  ds.foldl (fun n c => n * 10 + (c.toNat - 48)) 0

/-- Try to match `CITATION_PATTERN` at the head of `s`.  On success, return
the total length of the match and the captured page number. -/
def matchMarker (s : List Char) : Option (Nat × Nat) :=
  match parseLit ['[','R','e','f',':'] s with
  | none => none
  | some s1 =>
    let ws1 := s1.takeWhile Char.isWhitespace
    let s2 := s1.dropWhile Char.isWhitespace
    match parseLit ['P','a','g','e'] s2 with
    | none => none
    | some s3 =>
      let ws2 := s3.takeWhile Char.isWhitespace
      let s4 := s3.dropWhile Char.isWhitespace
      let digits := s4.takeWhile Char.isDigit
      let s5 := s4.dropWhile Char.isDigit
      if digits.isEmpty then none
      else
        match s5 with
        | ']' :: _ =>
            some (5 + ws1.length + 4 + ws2.length + digits.length + 1, natOfDigits digits)
        | _ => none

/-- `finditer` scan: page numbers of all pattern matches, left to right,
resuming after each match.  Structural recursion on a fuel argument that
starts at the text length; each step consumes at least one character (every
match has length ≥ 11), so the fuel never runs out before the text does. -/
def findMarkersAux : Nat → List Char → List Nat
  | 0, _ => []
  | _, [] => []
  | fuel + 1, c :: rest =>
    match matchMarker (c :: rest) with
    | some (len, page) => page :: findMarkersAux fuel ((c :: rest).drop len)
    | none => findMarkersAux fuel rest

/-- Page numbers referenced by `[Ref: Page N]` markers in the answer,
in left-to-right order of appearance. -/
def findMarkers (answer : List Char) : List Nat :=
  findMarkersAux answer.length answer

/-- The `page_to_chunk` index: `setdefault` keeps the first chunk seen per
page, so lookup is `find?` over the retrieved list in order. -/
def pageToChunk (chunks : List RChunk) (page : Nat) : Option RChunk :=
  chunks.find? (fun c => c.metadata.page_number == page)

/-- The citation dict built for match number `idx` (1-based over all matches)
resolved to chunk `c`: snippet is `document[:250]` with `"..."` appended when
the document is longer than 250 characters. -/
def mkCitation (idx : Nat) (c : RChunk) : Citation :=
  { id := idx
    source_file := c.metadata.source_file
    page_number := c.metadata.page_number
    snippet := c.document.take 250
      ++ (if 250 < c.document.length then ['.','.','.'] else []) }

/-- The `for idx, match in enumerate(..., start=1)` loop of `build_citations`:
markers whose page is absent from the index are skipped, but still consume
their enumeration index. -/
def citationLoop (chunks : List RChunk) : Nat → List Nat → List Citation
  | _, [] => []
  | idx, p :: ps =>
    match pageToChunk chunks p with
    | none => citationLoop chunks (idx + 1) ps
    | some c => mkCitation idx c :: citationLoop chunks (idx + 1) ps

/-- `build_citations(answer, chunks)`: scan the answer for markers, resolve
them against the page index; if no citation was produced and at least one
chunk was retrieved, synthesize a single fallback citation from the
top-ranked chunk (snippet `document[:250]`, no ellipsis). -/
def buildCitations (answer : List Char) (chunks : List RChunk) : List Citation :=
  let cits := citationLoop chunks 1 (findMarkers answer)
  match cits, chunks with
  | [], top :: _ =>
      [{ id := 1
         source_file := top.metadata.source_file
         page_number := top.metadata.page_number
         snippet := top.document.take 250 }]
  | _, _ => cits

/-! ## Query pipeline (`backend/services/query.py`, `execute_query`) -/

/-- `"\n".join(...)` -/
def joinNewline : List (List Char) → List Char
  | [] => []
  | [x] => x
  | x :: y :: rest => x ++ '\n' :: joinNewline (y :: rest)

/-- `build_context`: format each retrieved chunk as
`[Source: {source_file}, Page: {page_number}] {document}` and join with
newlines. -/
def buildContext (chunks : List RChunk) : List Char :=
  joinNewline (chunks.map (fun chunk =>
    "[Source: ".toList ++ chunk.metadata.source_file.toList
      ++ ", Page: ".toList ++ (toString chunk.metadata.page_number).toList
      ++ "] ".toList ++ chunk.document))

/-- The system prompt literal of `build_prompt`. -/
def systemPrompt : String :=
  "You are a precision-focused technical auditor. Your goal is to answer "
    ++ "questions based ONLY on the provided context snippets.\n\n"
    ++ "INPUT CONTEXT FORMAT:\n"
    ++ "[Source: \x7bfilename\x7d, Page: \x7bpage_number\x7d] \x7bcontent\x7d\n\n"
    ++ "INSTRUCTIONS:\n"
    ++ "1. Strict Grounding: Do not use outside knowledge. If the answer is "
    ++ "not in the context, state \"I cannot find this information in the provided documents.\"\n"
    ++ "2. Citation Requirement: Every single claim or factual statement must "
    ++ "be immediately followed by a citation reference in the format [Ref: Page X].\n"
    ++ "3. Synthesis: If multiple pages contain the answer, combine them and cite both.\n"
    ++ "4. Tone: Professional, objective, and concise.\n"

/-- `build_prompt(user_query, context)`. -/
def buildPrompt (userQuery context : List Char) : List Char :=
  systemPrompt.toList ++ "\n".toList
    ++ "USER QUESTION: ".toList ++ userQuery ++ "\n\n".toList
    ++ "CONTEXT:\n".toList ++ context

/-- `execute_query`, parameterized by the budgeted retrieval result and by the
generator (`call_gemini`), which is modelled as a function from the prompt to
the answer text.  Returns `(answer, citations, chunks)`. -/
def executeQuery (retrieved : List RChunk) (generate : List Char → List Char)
    (userQuery : List Char) : List Char × List Citation × List RChunk :=
  match retrieved with
  | [] => ("I cannot find this information in the provided documents.".toList, [], [])
  | _ :: _ =>
    let context := buildContext retrieved
    let prompt := buildPrompt userQuery context
    let answer := generate prompt
    (answer, buildCitations answer retrieved, retrieved)

/-! ## Ingestion pipeline and deduplication (`process_pdf`, lines 185-221)

The vector store is modelled by the list of chunk ids it holds: `get(ids)`
returns the requested ids already present, `add` is keyed by id.  The text
splitter (`RecursiveCharacterTextSplitter`) is an external deterministic
function and enters the model as a parameter `chunkFn`; `_chunk_sha` likewise
as parameter `sha`. -/

/-- Fixed per-document ingestion context: `settings.chunk_overlap`, the
`_chunk_sha` hash, `pdf_path.name` and the 12-hex `file_tag`. -/
structure IngestCtx where
  overlap : Nat
  sha : List Char → List Char
  fileName : String
  fileTag : String

/-- One entry of the per-page `payload` list (the `metadata` dict is
flattened; `chunk_id` inside the metadata duplicates `id` and is omitted). -/
structure PayloadItem where
  id : String
  document : List Char
  source_file : String
  page_number : Nat
  char_start : Nat
  char_end : Nat
  chunk_sha : List Char
deriving DecidableEq

/-- `f"{file_tag}_page_{page_index + 1}_chunk_{chunk_idx}_{char_start}"` -/
def chunkId (fileTag : String) (pageNum chunkIdx charStart : Nat) : String :=
  fileTag ++ "_page_" ++ toString pageNum ++ "_chunk_" ++ toString chunkIdx
    ++ "_" ++ toString charStart

/-- The per-page chunk loop (lines 185-206): thread `search_start` through
`_find_chunk_bounds` and build the payload entries in order. -/
def buildPayload (ctx : IngestCtx) (pageNum : Nat) (pageText : List Char) :
    List (List Char) → Nat → Nat → List PayloadItem
  | [], _, _ => []
  | chunkText :: rest, chunkIdx, searchStart =>
    let b := findChunkBounds ctx.overlap pageText chunkText searchStart
    { id := chunkId ctx.fileTag pageNum chunkIdx b.1
      document := chunkText
      source_file := ctx.fileName
      page_number := pageNum
      char_start := b.1
      char_end := b.2.1
      chunk_sha := ctx.sha chunkText }
      :: buildPayload ctx pageNum pageText rest (chunkIdx + 1) b.2.2

/-- The dedup-and-insert step (lines 208-221): `existing` is the set of
requested ids already in the store, `to_add` the payload entries whose id is
absent, which are then added.  Returns the new store contents together with
this page's `chunks_added` and `chunks_skipped` increments. -/
def processPage (store : List String) (payload : List PayloadItem) :
    List String × Nat × Nat :=
  let ids := payload.map (fun item => item.id)
  let existing := ids.filter (fun i => decide (i ∈ store))
  let toAdd := payload.filter (fun item => decide (item.id ∉ existing))
  (store ++ toAdd.map (fun item => item.id), toAdd.length,
    payload.length - toAdd.length)

/-- The page loop of `process_pdf`, for pages whose normalized text is already
computed (extraction is modelled separately): empty pages are skipped
(`continue`), non-empty pages are chunked by `chunkFn`, located, deduplicated
and inserted.  Returns `(final store, chunks_added, chunks_skipped)`. -/
def processPdfAux (ctx : IngestCtx) (chunkFn : List Char → List (List Char)) :
    List (List Char) → Nat → List String → List String × Nat × Nat
  | [], _, store => (store, 0, 0)
  | t :: rest, pageIdx, store =>
    if t = [] then processPdfAux ctx chunkFn rest (pageIdx + 1) store
    else
      let payload := buildPayload ctx (pageIdx + 1) t (chunkFn t) 0 0
      let r := processPage store payload
      let r2 := processPdfAux ctx chunkFn rest (pageIdx + 1) r.1
      (r2.1, r.2.1 + r2.2.1, r.2.2 + r2.2.2)

/-- `process_pdf` on a document given by the normalized texts of its pages. -/
def processPdf (ctx : IngestCtx) (chunkFn : List Char → List (List Char))
    (pages : List (List Char)) (store : List String) : List String × Nat × Nat :=
  processPdfAux ctx chunkFn pages 0 store

/-- The candidate chunk ids a run of `process_pdf` generates, in order.  They
are a pure function of the document and context — independent of the store —
so both runs over an unchanged document consider identical ids. -/
def processPdfIdsAux (ctx : IngestCtx) (chunkFn : List Char → List (List Char)) :
    List (List Char) → Nat → List String
  | [], _ => []
  | t :: rest, pageIdx =>
    if t = [] then processPdfIdsAux ctx chunkFn rest (pageIdx + 1)
    else (buildPayload ctx (pageIdx + 1) t (chunkFn t) 0 0).map (fun item => item.id)
      ++ processPdfIdsAux ctx chunkFn rest (pageIdx + 1)

/-- The candidate chunk ids of a full `process_pdf` run. -/
def processPdfIds (ctx : IngestCtx) (chunkFn : List Char → List (List Char))
    (pages : List (List Char)) : List String :=
  processPdfIdsAux ctx chunkFn pages 0

/-! ## Extraction chain (`process_pdf`, lines 93-168)

Each extraction strategy is modelled by its outcome: `Except.error ()` when
the strategy raises, `Except.ok t` when it returns text `t` (for direct
extraction, `page.extract_text() or ""` already folds `None` into `""`).  The
table tier distinguishes "raised" / "no tables found" / "table text built".
`extractPageText` reproduces the control flow: each non-direct tier runs
inside `try/except` and a failure leaves `raw_text` unchanged, while the
direct tier (line 96) runs outside any `try`. -/

/-- Python truthiness of `text.strip()`: blank iff every character is
whitespace (or the text is empty). -/
def isBlank (s : List Char) : Bool :=
  s.all Char.isWhitespace

/-- The four-tier extraction chain for one page: direct `extract_text()`,
`extract_text(layout=True)`, table reconstruction, OCR (when available,
adopted only if its stripped text is non-empty).  Result is the final
`raw_text`, or `Except.error` if the chain itself raised. -/
def extractPageText (direct layoutR : Except Unit (List Char))
    (tableR : Except Unit (Option (List Char))) (ocrR : Except Unit (List Char))
    (ocrAvailable : Bool) : Except Unit (List Char) :=
  match direct with
  | Except.error e => Except.error e
  | Except.ok t0 =>
    let t1 := if isBlank t0 then
        (match layoutR with
         | Except.ok l => l
         | Except.error _ => t0)
      else t0
    let t2 := if isBlank t1 then
        (match tableR with
         | Except.ok (some tb) => tb
         | Except.ok none => t1
         | Except.error _ => t1)
      else t1
    let t3 := if isBlank t2 then
        (if ocrAvailable then
          (match ocrR with
           | Except.ok o => if isBlank o then t2 else o
           | Except.error _ => t2)
         else t2)
      else t2
    Except.ok t3

/-! ## Orientation detection fallback (`backend/services/ocr.py`,
`_detect_orientation`, lines 93-112)

The per-angle OCR call `pytesseract.image_to_string(rotated, ...)` is modelled
by a function from the rotation angle to `Except Unit (List Char)`: an
exception skips the angle (`continue`), a result updates the running best on
strictly greater stripped length. -/

/-- Python `str.strip()`: drop whitespace from both ends. -/
def pyStrip (s : List Char) : List Char :=
  ((s.dropWhile Char.isWhitespace).reverse.dropWhile Char.isWhitespace).reverse

/-- The brute-force loop: fold over the candidate angles, carrying
`(best_angle, best_text_length)`, updating only on strictly greater stripped
text length. -/
def bestAngleLoop (ocr : Nat → Except Unit (List Char)) :
    List Nat → Nat × Nat → Nat × Nat
  | [], best => best
  | a :: rest, best =>
    match ocr a with
    | Except.error _ => bestAngleLoop ocr rest best
    | Except.ok t =>
        if best.2 < (pyStrip t).length then bestAngleLoop ocr rest (a, (pyStrip t).length)
        else bestAngleLoop ocr rest best

/-- The fallback branch of `_detect_orientation`: try 0, 90, 180, 270 starting
from `(best_angle, best_text_length) = (0, 0)` and return the best angle. -/
def detectOrientationFallback (ocr : Nat → Except Unit (List Char)) : Nat :=
  (bestAngleLoop ocr [0, 90, 180, 270] (0, 0)).1

end PrecisionRAG

namespace PrecisionRAG

theorem pyFind_some_match {s sub : List Char} {st i : Nat} (h : pyFind s sub st = some i) :
    (s.drop i).take sub.length = sub := by
  have hp := List.find?_some h
  simp only [Bool.and_eq_true, decide_eq_true_eq, matchAt] at hp
  exact hp.2

theorem locateChunk_some_match {pageText chunkText : List Char} {ss i : Nat}
    (h : locateChunk pageText chunkText ss = some i) :
    (pageText.drop i).take chunkText.length = chunkText := by
  unfold locateChunk at h
  cases hf : pyFind pageText chunkText ss with
  | some j =>
      rw [hf] at h
      cases h
      exact pyFind_some_match hf
  | none =>
      rw [hf] at h
      exact pyFind_some_match h

/-- C1: whenever offset recovery succeeded (the chunk text was located either
starting at the moving cursor or by the unconstrained retry, not the degraded
fallback), the recovered span is exact:
`page_text[char_start:char_end] == chunk_text`. -/
theorem offset_recovery_exact (overlap : Nat) (pageText chunkText : List Char)
    (searchStart : Nat)
    (h : (locateChunk pageText chunkText searchStart).isSome = true) :
    pySlice pageText (findChunkBounds overlap pageText chunkText searchStart).1
      (findChunkBounds overlap pageText chunkText searchStart).2.1 = chunkText := by
  obtain ⟨i, hi⟩ := Option.isSome_iff_exists.mp h
  have hmatch := locateChunk_some_match hi
  unfold findChunkBounds pySlice
  rw [hi]
  simpa using hmatch

/-- Witness for C1 at `page_text = "abab"`, `chunk_text = "ab"`, cursor 2:
the second occurrence is found and the slice reproduces the chunk. -/
theorem offset_recovery_exact_witness :
    (locateChunk ['a','b','a','b'] ['a','b'] 2).isSome = true ∧
    pySlice ['a','b','a','b'] (findChunkBounds 150 ['a','b','a','b'] ['a','b'] 2).1
      (findChunkBounds 150 ['a','b','a','b'] ['a','b'] 2).2.1 = ['a','b'] :=
  ⟨by decide, offset_recovery_exact 150 ['a','b','a','b'] ['a','b'] 2 (by decide)⟩

/-- C2 counterexample: on `page_text = "a"`, `chunk_text = "bc"` the chunk is
not found anywhere (degraded fallback), yet `_find_chunk_bounds` returns
`char_start = 1 = len(page_text)` and `char_end = 3 ≠ len(page_text)`; in
particular the span does not collapse to `[page_length, page_length]` and
`char_start ≠ char_end`. -/
theorem fallback_span_cex :
    locateChunk ['a'] ['b','c'] 0 = none ∧
    (findChunkBounds 150 ['a'] ['b','c'] 0).1 = 1 ∧
    (findChunkBounds 150 ['a'] ['b','c'] 0).2.1 = 3 ∧
    ¬ (findChunkBounds 150 ['a'] ['b','c'] 0).1
        = (findChunkBounds 150 ['a'] ['b','c'] 0).2.1 := by
  decide

/-- C2 amended: in the degraded fallback (chunk text found nowhere in the page
text) `_find_chunk_bounds` returns `char_start = len(page_text)` and
`char_end = len(page_text) + len(chunk_text)`; and for every chunk with
non-empty text, `char_start < char_end` (including the degraded case). -/
theorem fallback_span_amended (overlap : Nat) (pageText chunkText : List Char)
    (searchStart : Nat) :
    (locateChunk pageText chunkText searchStart = none →
      (findChunkBounds overlap pageText chunkText searchStart).1 = pageText.length ∧
      (findChunkBounds overlap pageText chunkText searchStart).2.1
        = pageText.length + chunkText.length) ∧
    (chunkText ≠ [] →
      (findChunkBounds overlap pageText chunkText searchStart).1
        < (findChunkBounds overlap pageText chunkText searchStart).2.1) := by
  constructor
  · intro h
    unfold findChunkBounds
    rw [h]
    exact ⟨rfl, rfl⟩
  · intro h
    unfold findChunkBounds
    have : 0 < chunkText.length := List.length_pos.mpr h
    simp only []
    omega

/-- Witness for C2 (amended) at `page_text = "a"`, `chunk_text = "bc"`,
discharging both hypotheses of the amended statement. -/
theorem fallback_span_amended_witness :
    (findChunkBounds 150 ['a'] ['b','c'] 0).1 = (['a'] : List Char).length ∧
    (findChunkBounds 150 ['a'] ['b','c'] 0).2.1
      = (['a'] : List Char).length + (['b','c'] : List Char).length ∧
    (findChunkBounds 150 ['a'] ['b','c'] 0).1 < (findChunkBounds 150 ['a'] ['b','c'] 0).2.1 := by
  have h := fallback_span_amended 150 ['a'] ['b','c'] 0
  have h1 := h.1 (by decide)
  exact ⟨h1.1, h1.2, h.2 (by decide)⟩

/-- C10: `_find_chunk_bounds` always returns `(start, end, next_search)` with
`end = start + len(chunk_text)` and `next_search = max(0, end - chunk_overlap)`
(as Python integers); consequently the recorded span length equals the chunk
text length, and in the degraded not-found case `char_start = len(page_text)`
and `char_end = len(page_text) + len(chunk_text)`. -/
theorem find_chunk_bounds_shape (overlap : Nat) (pageText chunkText : List Char)
    (searchStart : Nat) :
    (findChunkBounds overlap pageText chunkText searchStart).2.1
      = (findChunkBounds overlap pageText chunkText searchStart).1 + chunkText.length ∧
    ((findChunkBounds overlap pageText chunkText searchStart).2.2 : Int)
      = max 0 (((findChunkBounds overlap pageText chunkText searchStart).2.1 : Int)
          - (overlap : Int)) ∧
    (locateChunk pageText chunkText searchStart = none →
      (findChunkBounds overlap pageText chunkText searchStart).1 = pageText.length ∧
      (findChunkBounds overlap pageText chunkText searchStart).2.1
        = pageText.length + chunkText.length) := by
  refine ⟨rfl, ?_, ?_⟩
  · unfold findChunkBounds
    simp only []
    omega
  · intro h
    unfold findChunkBounds
    rw [h]
    exact ⟨rfl, rfl⟩

/-- Witness for C10 at `page_text = "a"`, `chunk_text = "bc"`, overlap 150:
the degraded-case hypothesis is discharged concretely. -/
theorem find_chunk_bounds_shape_witness :
    (findChunkBounds 150 ['a'] ['b','c'] 0).2.1
      = (findChunkBounds 150 ['a'] ['b','c'] 0).1 + (['b','c'] : List Char).length ∧
    (findChunkBounds 150 ['a'] ['b','c'] 0).1 = (['a'] : List Char).length := by
  have h := find_chunk_bounds_shape 150 ['a'] ['b','c'] 0
  exact ⟨h.1, (h.2.2 (by decide)).1⟩

theorem budgetLoop_take (maxChars : Nat) :
    ∀ (l : List RChunk) (total : Nat),
      budgetLoop maxChars total l = l.take (budgetLoop maxChars total l).length := by
  intro l
  induction l with
  | nil => intro total; rfl
  | cons c rest ih =>
      intro total
      unfold budgetLoop
      by_cases h : maxChars < total + c.document.length
      · simp [if_pos h]
      · rw [if_neg h]
        simp only [List.length_cons, List.take_succ_cons]
        exact congrArg (fun t => c :: t) (ih (total + c.document.length))

theorem budgetLoop_sum (maxChars : Nat) :
    ∀ (l : List RChunk) (total : Nat), total ≤ maxChars →
      total + ((budgetLoop maxChars total l).map (fun c => c.document.length)).sum
        ≤ maxChars := by
  intro l
  induction l with
  | nil => intro total h; simpa [budgetLoop] using h
  | cons c rest ih =>
      intro total h
      unfold budgetLoop
      by_cases hc : maxChars < total + c.document.length
      · simpa [if_pos hc] using h
      · have := ih (total + c.document.length) (by omega)
        rw [if_neg hc]
        simp only [List.map_cons, List.sum_cons]
        omega

theorem budgetLoop_longest (maxChars : Nat) :
    ∀ (l : List RChunk) (n total : Nat), n ≤ l.length →
      total + ((l.take n).map (fun c => c.document.length)).sum ≤ maxChars →
      n ≤ (budgetLoop maxChars total l).length := by
  intro l
  induction l with
  | nil => intro n total hn _; exact hn
  | cons c rest ih =>
      intro n total hn hsum
      cases n with
      | zero => exact Nat.zero_le _
      | succ m =>
          simp only [List.take_succ_cons, List.map_cons, List.sum_cons] at hsum
          have hm : m ≤ rest.length := by simpa using hn
          have hc : ¬ maxChars < total + c.document.length := by omega
          unfold budgetLoop
          rw [if_neg hc]
          simp only [List.length_cons]
          have := ih m (total + c.document.length) hm (by omega)
          omega

/-- C4: the budget selection of `retrieve_chunks` returns a prefix of the
ranked list, its total document length is at most `max_chars`, and it is the
longest prefix of the input satisfying that bound (accumulation in ranking
order, stop at the first overflowing chunk, no reordering, no truncation). -/
theorem context_budget_maximal (maxChars : Nat) (combined : List RChunk) :
    retrieveBudget maxChars combined
      = combined.take (retrieveBudget maxChars combined).length ∧
    ((retrieveBudget maxChars combined).map (fun c => c.document.length)).sum ≤ maxChars ∧
    (∀ n, n ≤ combined.length →
      ((combined.take n).map (fun c => c.document.length)).sum ≤ maxChars →
      n ≤ (retrieveBudget maxChars combined).length) := by
  refine ⟨budgetLoop_take maxChars combined 0, ?_, ?_⟩
  · simpa using budgetLoop_sum maxChars combined 0 (Nat.zero_le _)
  · intro n hn hsum
    exact budgetLoop_longest maxChars combined n 0 hn (by simpa using hsum)

/-- Witness for C4 on a concrete ranked list (document lengths 3 and 4,
budget 5): the maximality conjunct is applied at `n = 1`. -/
theorem context_budget_maximal_witness :
    1 ≤ (retrieveBudget 5
      [⟨"c1", ['a','b','c'], ⟨"f.pdf", 1⟩, 0⟩,
       ⟨"c2", ['d','e','f','g'], ⟨"f.pdf", 2⟩, 0⟩]).length :=
  (context_budget_maximal 5
    [⟨"c1", ['a','b','c'], ⟨"f.pdf", 1⟩, 0⟩,
     ⟨"c2", ['d','e','f','g'], ⟨"f.pdf", 2⟩, 0⟩]).2.2 1 (by decide) (by decide)

set_option maxRecDepth 4000

theorem citationLoop_eq_nil (chunks : List RChunk) :
    ∀ (ms : List Nat) (i : Nat), (∀ p ∈ ms, pageToChunk chunks p = none) →
      citationLoop chunks i ms = [] := by
  intro ms
  induction ms with
  | nil => intro i _; rfl
  | cons p ps ih =>
      intro i h
      unfold citationLoop
      rw [h p (List.mem_cons_self p ps)]
      exact ih (i + 1) (fun q hq => h q (List.mem_cons_of_mem p hq))

/-- C5: if at least one chunk was retrieved and no citation marker of the
answer resolves to a retrieved page, `build_citations` returns exactly one
citation, with id 1, carrying the source file and page number of the
top-ranked chunk, and its snippet is a prefix of that chunk text. -/
theorem citation_fallback (top : RChunk) (rest : List RChunk) (answer : List Char)
    (h : ∀ p ∈ findMarkers answer, pageToChunk (top :: rest) p = none) :
    buildCitations answer (top :: rest)
      = [{ id := 1
           source_file := top.metadata.source_file
           page_number := top.metadata.page_number
           snippet := top.document.take 250 }] ∧
    ∃ suffix, top.document.take 250 ++ suffix = top.document := by
  constructor
  · unfold buildCitations
    rw [citationLoop_eq_nil (top :: rest) (findMarkers answer) 1 h]
  · exact ⟨top.document.drop 250, List.take_append_drop 250 top.document⟩

/-- Witness for C5: one retrieved chunk on page 1, answer referencing the
absent page 99 only. -/
theorem citation_fallback_witness :
    buildCitations "[Ref: Page 99]".toList [⟨"c1", ['h','i'], ⟨"f.pdf", 1⟩, 0⟩]
      = [⟨1, "f.pdf", 1, List.take 250 ['h','i']⟩] ∧
    ∃ suffix, List.take 250 ['h','i'] ++ suffix = ['h','i'] :=
  citation_fallback ⟨"c1", ['h','i'], ⟨"f.pdf", 1⟩, 0⟩ [] "[Ref: Page 99]".toList
    (by decide)

/-- C6 counterexample: answer `"[Ref: Page 99] x [Ref: Page 1]"` against a
single retrieved chunk on page 1.  Exactly one citation is returned but its id
is 2, not 1: the enumeration index of the dropped page-99 marker is consumed,
so the returned ids are not the consecutive sequence 1..n. -/
theorem citation_ids_gap_cex :
    ((buildCitations "[Ref: Page 99] x [Ref: Page 1]".toList
        [⟨"c1", ['h','i'], ⟨"f.pdf", 1⟩, 0⟩]).map (fun c => c.id)) = [2] ∧
    (buildCitations "[Ref: Page 99] x [Ref: Page 1]".toList
        [⟨"c1", ['h','i'], ⟨"f.pdf", 1⟩, 0⟩]).length = 1 := by
  decide

theorem citationLoop_enum (chunks : List RChunk) :
    ∀ (ms : List Nat) (i : Nat),
      citationLoop chunks i ms
        = (List.enumFrom i ms).filterMap
            (fun ip => Option.map (mkCitation ip.1) (pageToChunk chunks ip.2)) := by
  intro ms
  induction ms with
  | nil => intro i; rfl
  | cons p ps ih =>
      intro i
      unfold citationLoop
      cases hp : pageToChunk chunks p with
      | none => simp [List.enumFrom, List.filterMap_cons, hp, ih (i + 1)]
      | some c => simp [List.enumFrom, List.filterMap_cons, hp, ih (i + 1)]

theorem citationLoop_id_ge (chunks : List RChunk) :
    ∀ (ms : List Nat) (i : Nat) (c : Citation), c ∈ citationLoop chunks i ms →
      i ≤ c.id := by
  intro ms
  induction ms with
  | nil => intro i c h; cases h
  | cons p ps ih =>
      intro i c h
      unfold citationLoop at h
      cases hp : pageToChunk chunks p with
      | none =>
          rw [hp] at h
          exact Nat.le_of_succ_le (ih (i + 1) c h)
      | some ch =>
          rw [hp] at h
          cases h with
          | head => exact Nat.le_refl i
          | tail _ h => exact Nat.le_of_succ_le (ih (i + 1) c h)

theorem citationLoop_pairwise (chunks : List RChunk) :
    ∀ (ms : List Nat) (i : Nat),
      List.Pairwise (fun a b : Citation => a.id < b.id) (citationLoop chunks i ms) := by
  intro ms
  induction ms with
  | nil => intro i; exact List.Pairwise.nil
  | cons p ps ih =>
      intro i
      unfold citationLoop
      cases hp : pageToChunk chunks p with
      | none => exact ih (i + 1)
      | some ch =>
          refine List.Pairwise.cons ?_ (ih (i + 1))
          intro b hb
          have := citationLoop_id_ge chunks ps (i + 1) b hb
          simp only [mkCitation]
          omega

/-- C6 (amended): the citations returned by `build_citations` (when at least
one marker resolved, so the fallback is not taken) are exactly the resolvable
markers in left-to-right order of appearance, each carrying as id the 1-based
index of its marker among ALL markers of the answer; ids are therefore
strictly increasing, but not necessarily consecutive, since a marker whose
page is absent from the retrieved set is silently dropped while still
consuming its index. -/
theorem citation_ids_follow_markers (answer : List Char) (chunks : List RChunk)
    (h : citationLoop chunks 1 (findMarkers answer) ≠ []) :
    buildCitations answer chunks
      = (List.enumFrom 1 (findMarkers answer)).filterMap
          (fun ip => Option.map (mkCitation ip.1) (pageToChunk chunks ip.2)) ∧
    List.Pairwise (fun a b : Citation => a.id < b.id)
      (buildCitations answer chunks) := by
  have hb : buildCitations answer chunks
      = citationLoop chunks 1 (findMarkers answer) := by
    unfold buildCitations
    cases hc : citationLoop chunks 1 (findMarkers answer) with
    | nil => exact absurd hc h
    | cons x xs => rfl
  rw [hb]
  exact ⟨citationLoop_enum chunks (findMarkers answer) 1,
    citationLoop_pairwise chunks (findMarkers answer) 1⟩

/-- Witness for C6 (amended): the answer of the C6 counterexample, where the
single returned citation exists (id 2). -/
theorem citation_ids_follow_markers_witness :
    buildCitations "[Ref: Page 99] x [Ref: Page 1]".toList
        [⟨"c1", ['h','i'], ⟨"f.pdf", 1⟩, 0⟩]
      = (List.enumFrom 1 (findMarkers "[Ref: Page 99] x [Ref: Page 1]".toList)).filterMap
          (fun ip => Option.map (mkCitation ip.1)
            (pageToChunk [⟨"c1", ['h','i'], ⟨"f.pdf", 1⟩, 0⟩] ip.2)) ∧
    List.Pairwise (fun a b : Citation => a.id < b.id)
      (buildCitations "[Ref: Page 99] x [Ref: Page 1]".toList
        [⟨"c1", ['h','i'], ⟨"f.pdf", 1⟩, 0⟩]) :=
  citation_ids_follow_markers "[Ref: Page 99] x [Ref: Page 1]".toList
    [⟨"c1", ['h','i'], ⟨"f.pdf", 1⟩, 0⟩] (by decide)

/-- C9: when the budgeted retrieval yields no chunks, `execute_query` returns
the fixed refusal answer with an empty citation list, and the generator is
never invoked (the result does not depend on it). -/
theorem empty_retrieval_refusal (generate generateOther : List Char → List Char)
    (userQuery : List Char) :
    executeQuery [] generate userQuery
      = ("I cannot find this information in the provided documents.".toList, [], []) ∧
    executeQuery [] generate userQuery = executeQuery [] generateOther userQuery :=
  ⟨rfl, rfl⟩

theorem processPage_store_mono (store : List String) (payload : List PayloadItem)
    {x : String} (h : x ∈ store) : x ∈ (processPage store payload).1 :=
  List.mem_append_left _ h

theorem processPage_mem_store (store : List String) (payload : List PayloadItem)
    {item : PayloadItem} (h : item ∈ payload) :
    item.id ∈ (processPage store payload).1 := by
  by_cases hs : item.id ∈ store
  · exact List.mem_append_left _ hs
  · apply List.mem_append_right
    refine List.mem_map.mpr ⟨item, ?_, rfl⟩
    refine List.mem_filter.mpr ⟨h, ?_⟩
    rw [decide_eq_true_eq]
    intro hmem
    exact hs (of_decide_eq_true (List.mem_filter.mp hmem).2)

theorem processPage_all_present (store : List String) (payload : List PayloadItem)
    (h : ∀ item ∈ payload, item.id ∈ store) :
    processPage store payload = (store, 0, payload.length) := by
  have htoAdd : payload.filter
      (fun item => decide (item.id ∉
        (payload.map (fun it => it.id)).filter (fun i => decide (i ∈ store)))) = [] := by
    rw [List.filter_eq_nil_iff]
    intro item hitem
    simp only [decide_eq_true_eq, not_not]
    exact List.mem_filter.mpr
      ⟨List.mem_map.mpr ⟨item, hitem, rfl⟩, decide_eq_true (h item hitem)⟩
  simp only [processPage]
  rw [htoAdd]
  simp

theorem processPage_counts (store : List String) (payload : List PayloadItem) :
    (processPage store payload).2.1 + (processPage store payload).2.2
      = payload.length := by
  simp only [processPage]
  have := List.length_filter_le
    (fun item => decide (item.id ∉
      (payload.map (fun it => it.id)).filter (fun i => decide (i ∈ store)))) payload
  omega

theorem processPdfAux_store_mono (ctx : IngestCtx)
    (chunkFn : List Char → List (List Char)) :
    ∀ (pages : List (List Char)) (pageIdx : Nat) (store : List String) (x : String),
      x ∈ store → x ∈ (processPdfAux ctx chunkFn pages pageIdx store).1 := by
  intro pages
  induction pages with
  | nil => intro pageIdx store x h; exact h
  | cons t rest ih =>
      intro pageIdx store x h
      unfold processPdfAux
      by_cases ht : t = []
      · rw [if_pos ht]; exact ih (pageIdx + 1) store x h
      · rw [if_neg ht]
        exact ih (pageIdx + 1) _ x (processPage_store_mono store _ h)

theorem processPdfAux_ids_present (ctx : IngestCtx)
    (chunkFn : List Char → List (List Char)) :
    ∀ (pages : List (List Char)) (pageIdx : Nat) (store : List String) (x : String),
      x ∈ processPdfIdsAux ctx chunkFn pages pageIdx →
      x ∈ (processPdfAux ctx chunkFn pages pageIdx store).1 := by
  intro pages
  induction pages with
  | nil => intro pageIdx store x h; cases h
  | cons t rest ih =>
      intro pageIdx store x h
      unfold processPdfAux
      unfold processPdfIdsAux at h
      by_cases ht : t = []
      · rw [if_pos ht] at h ⊢
        exact ih (pageIdx + 1) store x h
      · rw [if_neg ht] at h ⊢
        rcases List.mem_append.mp h with hleft | hright
        · obtain ⟨item, hitem, hid⟩ := List.mem_map.mp hleft
          subst hid
          exact processPdfAux_store_mono ctx chunkFn rest (pageIdx + 1) _ _
            (processPage_mem_store _ _ hitem)
        · exact ih (pageIdx + 1) _ x hright

theorem processPdfAux_absorbed (ctx : IngestCtx)
    (chunkFn : List Char → List (List Char)) :
    ∀ (pages : List (List Char)) (pageIdx : Nat) (store : List String),
      (∀ x ∈ processPdfIdsAux ctx chunkFn pages pageIdx, x ∈ store) →
      processPdfAux ctx chunkFn pages pageIdx store
        = (store, 0, (processPdfIdsAux ctx chunkFn pages pageIdx).length) := by
  intro pages
  induction pages with
  | nil => intro pageIdx store _; rfl
  | cons t rest ih =>
      intro pageIdx store h
      unfold processPdfAux
      unfold processPdfIdsAux at h ⊢
      by_cases ht : t = []
      · simp only [if_pos ht] at h ⊢
        exact ih (pageIdx + 1) store h
      · simp only [if_neg ht] at h ⊢
        have hpage : processPage store (buildPayload ctx (pageIdx + 1) t (chunkFn t) 0 0)
            = (store, 0, (buildPayload ctx (pageIdx + 1) t (chunkFn t) 0 0).length) := by
          apply processPage_all_present
          intro item hitem
          exact h item.id (List.mem_append_left _ (List.mem_map.mpr ⟨item, hitem, rfl⟩))
        have hrest := ih (pageIdx + 1) store
          (fun x hx => h x (List.mem_append_right _ hx))
        simp [hpage, hrest, List.length_append, List.length_map]

theorem processPdfAux_counts (ctx : IngestCtx)
    (chunkFn : List Char → List (List Char)) :
    ∀ (pages : List (List Char)) (pageIdx : Nat) (store : List String),
      (processPdfAux ctx chunkFn pages pageIdx store).2.1
          + (processPdfAux ctx chunkFn pages pageIdx store).2.2
        = (processPdfIdsAux ctx chunkFn pages pageIdx).length := by
  intro pages
  induction pages with
  | nil => intro pageIdx store; rfl
  | cons t rest ih =>
      intro pageIdx store
      unfold processPdfAux processPdfIdsAux
      by_cases ht : t = []
      · rw [if_pos ht, if_pos ht]
        exact ih (pageIdx + 1) store
      · rw [if_neg ht, if_neg ht]
        have h1 := processPage_counts store (buildPayload ctx (pageIdx + 1) t (chunkFn t) 0 0)
        have h2 := ih (pageIdx + 1)
          (processPage store (buildPayload ctx (pageIdx + 1) t (chunkFn t) 0 0)).1
        simp only [List.length_append, List.length_map]
        omega

/-- C3: re-running `process_pdf` on an unchanged document against a store
whose `add` is keyed by id and whose `get` returns the ids already present is
idempotent: the second run adds nothing (`chunks_added = 0`), skips every
candidate chunk (`chunks_skipped` equals the number of candidates), and
leaves the store unchanged.  The candidate ids (`processPdfIds`) are a pure
function of the document, independent of the store, so both runs consider
identical chunk ids; and in every run `chunks_added + chunks_skipped` equals
the number of candidates, i.e. only absent ids are added and the rest are
skipped. -/
theorem process_pdf_idempotent (ctx : IngestCtx)
    (chunkFn : List Char → List (List Char)) (pages : List (List Char))
    (store : List String) :
    processPdf ctx chunkFn pages ((processPdf ctx chunkFn pages store).1)
      = ((processPdf ctx chunkFn pages store).1, 0,
          (processPdfIds ctx chunkFn pages).length) ∧
    (processPdf ctx chunkFn pages store).2.1 + (processPdf ctx chunkFn pages store).2.2
      = (processPdfIds ctx chunkFn pages).length := by
  constructor
  · exact processPdfAux_absorbed ctx chunkFn pages 0 _
      (fun x hx => processPdfAux_ids_present ctx chunkFn pages 0 store x hx)
  · exact processPdfAux_counts ctx chunkFn pages 0 store

/-- C7 counterexample: a raised error in the first tier (direct
`page.extract_text()`, line 96 of `ingest.py`) is NOT swallowed — it is the
only extraction call outside any `try/except`, so per-page extraction raises
even though every later tier would have succeeded. -/
theorem extract_direct_error_propagates_cex :
    extractPageText (Except.error ()) (Except.ok ['x']) (Except.ok (some ['y']))
      (Except.ok ['z']) true = Except.error () := rfl

/-- C7 (amended): a raised internal error in the layout-preserving extraction,
the table reconstruction, or the OCR tier is swallowed (the page text is left
unchanged and the chain proceeds to the next tier), so extraction never raises
once direct extraction has returned; an error in direct extraction itself,
however, propagates. -/
theorem extract_tier_errors_swallowed (t0 : List Char)
    (layoutR : Except Unit (List Char)) (tableR : Except Unit (Option (List Char)))
    (ocrR : Except Unit (List Char)) (avail : Bool) :
    ∃ t, extractPageText (Except.ok t0) layoutR tableR ocrR avail = Except.ok t :=
  ⟨_, rfl⟩

/-- C8: when structured orientation detection fails, the brute-force fallback
tries the rotations 0, 90, 180, 270 and, when OCR succeeds on each, returns
an angle from that set whose stripped OCR text is strictly longer than that of
every lower angle and at least as long as that of every higher angle — i.e.
the lowest angle achieving the maximum length; in particular if every rotation
yields empty text the result is 0. -/
theorem detect_orientation_fallback_spec (ocr : Nat → Except Unit (List Char))
    (t0 t90 t180 t270 : List Char)
    (h0 : ocr 0 = Except.ok t0) (h90 : ocr 90 = Except.ok t90)
    (h180 : ocr 180 = Except.ok t180) (h270 : ocr 270 = Except.ok t270) :
    (detectOrientationFallback ocr = 0 ∨ detectOrientationFallback ocr = 90 ∨
      detectOrientationFallback ocr = 180 ∨ detectOrientationFallback ocr = 270) ∧
    (detectOrientationFallback ocr = 0 →
      (pyStrip t90).length ≤ (pyStrip t0).length ∧
      (pyStrip t180).length ≤ (pyStrip t0).length ∧
      (pyStrip t270).length ≤ (pyStrip t0).length) ∧
    (detectOrientationFallback ocr = 90 →
      (pyStrip t0).length < (pyStrip t90).length ∧
      (pyStrip t180).length ≤ (pyStrip t90).length ∧
      (pyStrip t270).length ≤ (pyStrip t90).length) ∧
    (detectOrientationFallback ocr = 180 →
      (pyStrip t0).length < (pyStrip t180).length ∧
      (pyStrip t90).length < (pyStrip t180).length ∧
      (pyStrip t270).length ≤ (pyStrip t180).length) ∧
    (detectOrientationFallback ocr = 270 →
      (pyStrip t0).length < (pyStrip t270).length ∧
      (pyStrip t90).length < (pyStrip t270).length ∧
      (pyStrip t180).length < (pyStrip t270).length) ∧
    ((pyStrip t0).length = 0 → (pyStrip t90).length = 0 →
      (pyStrip t180).length = 0 → (pyStrip t270).length = 0 →
      detectOrientationFallback ocr = 0) := by
  unfold detectOrientationFallback
  simp only [bestAngleLoop, h0, h90, h180, h270]
  split_ifs <;> dsimp only at * <;>
    refine ⟨by simp, ?_, ?_, ?_, ?_, ?_⟩ <;> intros <;>
    first
    | omega
    | simp_all

/-- Witness for C8: OCR yields text only at rotation 90, so the fallback picks
90 and the strict-dominance conjunct applies. -/
theorem detect_orientation_fallback_spec_witness :
    (pyStrip ([] : List Char)).length < (pyStrip ['x']).length :=
  ((detect_orientation_fallback_spec
      (fun a => if a = 90 then Except.ok ['x'] else Except.ok ([] : List Char))
      [] ['x'] [] [] rfl rfl rfl rfl).2.2.1 (by decide)).1

end PrecisionRAG
